import Mathlib

/-!
Shallow embedding of `src/server.py` (Boxnow delivery-receipt service): the
daily Excel append path (`ensure_df_and_append`), the FIFO snapshot queue
(`fifo_oldest_snapshot`, `flush`, `list_snapshots`), the delete endpoint's
path resolution (`delete_file`), and the API-key gate (`authed`), together
with theorems settling the specification claims about them.
-/

namespace Boxnow

/-- A pandas cell value: a Python string, a number, or NaN (the fill value
pandas uses for entries missing after a column-set union). -/
inductive Cell where
  | str (s : String)
  | num (n : Int)
  | nan
deriving DecidableEq, Repr

/-- Python `str()` applied to a cell value (`str` converter / `astype(str)`). -/
def pyStr : Cell → String
  | .str s => s
  | .num n => toString n
  | .nan => "nan"

/-- A pandas DataFrame: a column-name list and rows of cells aligned with it. -/
structure DF where
  cols : List String
  rows : List (List Cell)
deriving DecidableEq, Repr

/-- Model of `pd.DataFrame([row_dict])`: one-row frame whose columns are the dict's
keys in insertion order (src/server.py line 51). -/
def mkRowFrame (d : List (String × Cell)) : DF :=
  ⟨d.map Prod.fst, [d.map Prod.snd]⟩

/-- The cell of a row (aligned with column list `cs`) at column `c`; NaN when
the row has no such column. -/
def getCell (cs : List String) (r : List Cell) (c : String) : Cell :=
  match (cs.zip r).find? (fun p => p.1 == c) with
  | some p => p.2
  | none => .nan

/-- Model of `pd.concat([a, b], ignore_index=True)` (src/server.py line 56): the column
set is the union, in order of first appearance, and rows are re-aligned to it
with NaN filling the columns a row does not have. -/
def concatDF (a b : DF) : DF :=
  let cols := a.cols ++ b.cols.filter (fun c => ¬ a.cols.contains c)
  ⟨cols, a.rows.map (fun r => cols.map (getCell a.cols r))
      ++ b.rows.map (fun r => cols.map (getCell b.cols r))⟩

/-- The `voucher`-column string coercion used both by the read-time converter
`converters={"voucher": str}` (line 55) and by `astype(str)` (line 62): every
cell of the `voucher` column becomes the string `str()` renders it as. A frame
without a `voucher` column is left unchanged (pandas ignores a converter for
an absent column; the code guards the `astype` with `if "voucher" in columns`). -/
def convertVoucherStr (df : DF) : DF :=
  match df.cols.findIdx? (· == "voucher") with
  | some i => ⟨df.cols, df.rows.map (fun r => r.set i (.str (pyStr (r.getD i .nan))))⟩
  | none => df

/-- On-disk content of the daily file: a parseable table, or bytes
`pd.read_excel` cannot parse. -/
inductive FileContent where
  | table (df : DF)
  | corrupt
deriving DecidableEq, Repr

/-- Model of `pd.read_excel` with the voucher string converter (line 55): yields
the stored table with the voucher converter applied, and raises (modelled as
`Except.error`) when the file cannot be parsed. -/
def read_excel (fc : FileContent) : Except Unit DF :=
  match fc with
  | .table df => .ok (convertVoucherStr df)
  | .corrupt => .error ()

/-- Model of `get_daily_filename` (line 32): deterministic name from the date. -/
def get_daily_filename (date : String) : String :=
  "delivery_requests_" ++ date ++ ".xlsx"

/-- Model of `ensure_df_and_append` (lines 42-72): build a one-row frame from the row
dict; if the daily file exists, read it (an unparsable file raises) and concat;
coerce the voucher column to string when present; persist the combined frame
and return the daily filename, the row count and the new file content. State
is passed explicitly: `daily` is the daily file's content, `none` when absent. -/
def ensure_df_and_append (date : String) (row_dict : List (String × Cell))
    (daily : Option FileContent) : Except Unit (String × Nat × Option FileContent) :=
  let df_new := mkRowFrame row_dict
  let combinedE : Except Unit DF :=
    match daily with
    | some fc =>
      match read_excel fc with
      | .ok df_existing => .ok (concatDF df_existing df_new)
      | .error e => .error e
    | none => .ok df_new
  match combinedE with
  | .error e => .error e
  | .ok df_combined =>
    let df2 := if df_combined.cols.contains "voucher" then convertVoucherStr df_combined
               else df_combined
    .ok (get_daily_filename date, df2.rows.length, some (.table df2))

/-- Model of `authed` (lines 16-17): `bool(API_KEY) and request.headers.get("X-API-Key")
== API_KEY`. The header is `none` when absent (Python `None` compares unequal
to any string). -/
def authed (apiKey : String) (headerKey : Option String) : Bool :=
  (apiKey != "") && (headerKey == some apiKey)

/-- The required request fields of `/submit` (line 117). -/
def requiredFields : List String :=
  ["voucher", "delivery_station", "delivery_date_with_weekday", "more_instructions"]

/-- Python `k in data` for a JSON object modelled as an association list. -/
def hasKey (data : List (String × Cell)) (k : String) : Bool :=
  data.any (fun p => p.1 == k)

/-- Python `data.get(k, dflt)`. -/
def getJson (data : List (String × Cell)) (k : String) (dflt : Cell) : Cell :=
  match data.find? (fun p => p.1 == k) with
  | some p => p.2
  | none => dflt

/-- The row dict `/submit` builds (lines 121-129): exactly the four recognized
request fields (any other inbound field is never read) plus the two
server-generated meta columns; `voucher` goes through `str()`. `now` models
`datetime.utcnow().isoformat()`. -/
def buildSubmitRow (data : List (String × Cell)) (now : String) : List (String × Cell) :=
  [("voucher", .str (pyStr (getJson data "voucher" (.str "")))),
   ("delivery_station", getJson data "delivery_station" (.str "")),
   ("delivery_date_with_weekday", getJson data "delivery_date_with_weekday" (.str "")),
   ("more_instructions", getJson data "more_instructions" (.str "")),
   ("created_at", .str (now ++ "Z")),
   ("source", .str "submit")]

/-- Response of the `/submit` endpoint. -/
inductive SubmitResp where
  | unauthorized
  | missingFields
  | appended (file : String) (row_count : Nat)
  | serverError
deriving DecidableEq, Repr

/-- The `/submit` handler (lines 110-136): auth gate, presence check of the
required fields (`data` is `none` when the body is not JSON), then
`ensure_df_and_append`; an exception escaping the append (unparsable daily
file) surfaces as a generic server error with the file unchanged. -/
def submitH (apiKey : String) (headerKey : Option String) (date now : String)
    (data : Option (List (String × Cell))) (daily : Option FileContent) :
    SubmitResp × Option FileContent :=
  if ¬ authed apiKey headerKey then (.unauthorized, daily)
  else
    match data with
    | none => (.missingFields, daily)
    | some d =>
      if ¬ requiredFields.all (fun k => hasKey d k) then (.missingFields, daily)
      else
        match ensure_df_and_append date (buildSubmitRow d now) daily with
        | .ok (nm, cnt, d2) => (.appended nm cnt, d2)
        | .error _ => (.serverError, daily)

/-- A snapshot file in the snapshots directory: its filename, its filesystem
modification time, and its content. -/
structure Snap where
  name : String
  mtime : Nat
  content : FileContent
deriving DecidableEq, Repr

/-- Model of `f.lower().endswith(".xlsx")` (lines 76, 220): the name, lower-cased
character by character, ends with `.xlsx`. -/
def xlsxName (s : String) : Bool :=
  (s.toList.map Char.toLower).reverse.take 5 == ['x', 's', 'l', 'x', '.']

/-- Insert a snapshot into a list that is sorted by modification time, after
every entry of strictly smaller or equal mtime (keeps the sort stable, like
Python `sorted`). -/
def insertByMtime (x : Snap) : List Snap → List Snap
  | [] => [x]
  | y :: ys => if x.mtime < y.mtime then x :: y :: ys else y :: insertByMtime x ys

/-- Python `sorted(..., key=lambda fn: getmtime(fn))` (lines 75-78, 219-222):
stable sort of the directory entries by modification time. -/
def sortByMtime (l : List Snap) : List Snap :=
  l.foldl (fun acc x => insertByMtime x acc) []

/-- The snapshot-directory entries with the `.xlsx` suffix, sorted oldest
first by modification time — the list both `fifo_oldest_snapshot` and
`list_snapshots` are built from. -/
def sortedSnaps (snaps : List Snap) : List Snap :=
  sortByMtime (snaps.filter (fun f => xlsxName f.name))

/-- Model of `fifo_oldest_snapshot` (lines 74-79): the name of the `.xlsx` snapshot
with the smallest modification time, `none` when there is none. -/
def fifo_oldest_snapshot (snaps : List Snap) : Option String :=
  (sortedSnaps snaps).head?.map Snap.name

/-- Model of `/list_snapshots` (lines 213-223): the snapshot filenames, oldest first. -/
def list_snapshots (snaps : List Snap) : List String :=
  (sortedSnaps snaps).map Snap.name

/-- Model of `unique_snapshot_name` (lines 38-40): fresh name carrying the rotation
timestamp (`%Y%m%d_%H%M%S_%f`); `now` models the current clock reading. -/
def unique_snapshot_name (now : Nat) : String :=
  "delivery_requests_" ++ toString now ++ ".xlsx"

/-- The store state the locked region of `/flush` operates on: the daily
file's content (if present) and the snapshot directory. -/
structure St where
  daily : Option FileContent
  snapshots : List Snap
deriving DecidableEq, Repr

/-- Result of the locked region of `/flush`: a file served as attachment, or
the 404 "No file to download". -/
inductive FlushOut where
  | file (name : String)
  | notFound
deriving DecidableEq, Repr

/-- The locked region of `/flush` (lines 149-173): (1) if an `.xlsx` snapshot
exists, serve the oldest one, mutating nothing; (2) otherwise, if the daily
file exists, `os.replace` it into the snapshot directory under a fresh
timestamped name and serve it; (3) otherwise 404. `now` is the clock reading
used for the new snapshot's name (and, as its file is freshly moved, the
mtime recorded for it). -/
def flushModel (s : St) (now : Nat) : FlushOut × St :=
  match fifo_oldest_snapshot s.snapshots with
  | some nm => (.file nm, s)
  | none =>
    match s.daily with
    | some fc =>
      (.file (unique_snapshot_name now),
       { daily := none,
         snapshots := s.snapshots ++ [⟨unique_snapshot_name now, now, fc⟩] })
    | none => (.notFound, s)

/-- Response of the `/flush` endpoint. -/
inductive FlushResp where
  | unauthorized
  | file (name : String)
  | noFile
deriving DecidableEq, Repr

/-- The `/flush` handler (lines 138-173): auth gate, then the locked region. -/
def flushH (apiKey : String) (headerKey : Option String) (s : St) (now : Nat) :
    FlushResp × St :=
  if ¬ authed apiKey headerKey then (.unauthorized, s)
  else
    match flushModel s now with
    | (.file nm, s2) => (.file nm, s2)
    | (.notFound, s2) => (.noFile, s2)

/-- An absolute filesystem path as its list of components from the root. -/
abbrev Path := List String

/-- The folder `PERMANENT_FOLDER = "/tmp/saved_files"` (line 20). -/
def PERMANENT_FOLDER : Path := ["tmp", "saved_files"]

/-- The folder `SNAPSHOT_FOLDER = os.path.join(PERMANENT_FOLDER, "snapshots")` (line 21). -/
def SNAPSHOT_FOLDER : Path := ["tmp", "saved_files", "snapshots"]

/-- Split a character list at `/`, keeping empty segments. -/
def splitChars : List Char → List (List Char)
  | [] => [[]]
  | c :: cs =>
    if c = '/' then [] :: splitChars cs
    else
      match splitChars cs with
      | [] => [[c]]
      | g :: gs => (c :: g) :: gs

/-- The non-empty `/`-separated components of a path string. -/
def splitPath (s : String) : List String :=
  ((splitChars s.toList).map (fun cs => String.mk cs)).filter (fun t => t ≠ "")

/-- Whether a path string is absolute (starts with `/`). -/
def isAbsolute (s : String) : Bool :=
  match s.toList with
  | [] => false
  | c :: _ => c == '/'

/-- Model of `os.path.join(base, f)`: an absolute `f` discards `base`; otherwise the
components concatenate. The result may still contain `.` and `..` segments. -/
def osPathJoin (base : Path) (f : String) : List String :=
  if isAbsolute f then splitPath f else base ++ splitPath f

/-- Resolution of `.` and `..` segments as the filesystem performs it when a
path with such segments is opened, checked with `os.path.exists`, or removed
(`..` at the root stays at the root). -/
def normalizePath (p : List String) : Path :=
  p.foldl (fun acc c =>
    if c = "." then acc
    else if c = ".." then acc.dropLast
    else acc ++ [c]) []

/-- Response of the `/delete_file` endpoint. -/
inductive DeleteOut where
  | deleted (name : String)
  | refusedDaily
  | fileNotFound
  | filenameRequired
deriving DecidableEq, Repr

/-- The `/delete_file` handler after the auth gate (lines 193-211), over a
filesystem modelled as the list of existing (resolved) file paths: build
`path_snap = join(SNAPSHOT_FOLDER, filename)` and
`path_daily = join(PERMANENT_FOLDER, filename)`; `os.remove(path_snap)` if it
exists, else refuse if `path_daily` exists, else 404. No sanitization of
`filename` is performed anywhere. -/
def delete_file (fs : List Path) (filename : String) : DeleteOut × List Path :=
  if filename = "" then (.filenameRequired, fs)
  else
    let path_snap := normalizePath (osPathJoin SNAPSHOT_FOLDER filename)
    let path_daily := normalizePath (osPathJoin PERMANENT_FOLDER filename)
    if fs.contains path_snap then (.deleted filename, fs.erase path_snap)
    else if fs.contains path_daily then (.refusedDaily, fs)
    else (.fileNotFound, fs)

/-- Whether path `p` lies inside directory `d`. -/
def inDirectory (d p : Path) : Bool :=
  d == p.take d.length

/-- A valid `/submit` request body: the four required fields, present with
string values. -/
structure SubmitReq where
  voucher : String
  delivery_station : String
  delivery_date_with_weekday : String
  more_instructions : String
deriving DecidableEq, Repr

/-- The JSON object of a valid `/submit` request. -/
def reqData (r : SubmitReq) : List (String × Cell) :=
  [("voucher", .str r.voucher),
   ("delivery_station", .str r.delivery_station),
   ("delivery_date_with_weekday", .str r.delivery_date_with_weekday),
   ("more_instructions", .str r.more_instructions)]

/-- The column set `/submit` writes (the recognized fields plus the two meta
columns), in the order the row dict fixes. -/
def submitCols : List String :=
  ["voucher", "delivery_station", "delivery_date_with_weekday",
   "more_instructions", "created_at", "source"]

/-- The row the daily file holds for a valid submit handled at time `now`. -/
def expectedRow (r : SubmitReq) (now : String) : List Cell :=
  [.str r.voucher, .str r.delivery_station, .str r.delivery_date_with_weekday,
   .str r.more_instructions, .str (now ++ "Z"), .str "submit"]

/-- The daily file's content after the valid submits `l` (in order, each
paired with its handling time) of a day that started with no daily file. -/
def stateOf : List (SubmitReq × String) → Option FileContent
  | [] => none
  | l => some (.table ⟨submitCols, l.map (fun p => expectedRow p.1 p.2)⟩)

/-- Run a sequence of authenticated `/submit` requests (each a valid record
paired with its handling time), collecting the responses and threading the
daily file's content. -/
def runSubmits (apiKey date : String) :
    List (SubmitReq × String) → Option FileContent → List SubmitResp × Option FileContent
  | [], daily => ([], daily)
  | (r, now) :: rest, daily =>
    let step := submitH apiKey (some apiKey) date now (some (reqData r)) daily
    let next := runSubmits apiKey date rest step.2
    (step.1 :: next.1, next.2)

/-- Re-read the daily file as a consumer of the store would (`pd.read_excel`
with the voucher converter, then the voucher column's cells as strings). -/
def readBackVouchers (daily : Option FileContent) : Option (List String) :=
  match daily with
  | some fc =>
    match read_excel fc with
    | .ok df =>
      match df.cols.findIdx? (· == "voucher") with
      | some i => some (df.rows.map (fun r => pyStr (r.getD i .nan)))
      | none => none
    | .error _ => none
  | none => none

/-- A legacy daily file carrying a column outside the submit column set (the
`/api/receipts/upload` handler, lines 284-293, writes `file_bytes` and
`upload_filename` columns into the same daily file). -/
def legacyDF : DF :=
  ⟨["voucher", "delivery_station", "delivery_date_with_weekday",
    "more_instructions", "file_bytes"],
   [[.str "A", .str "B", .str "C", .str "D", .num 123]]⟩

/-! ## Helper lemmas -/

theorem convertVoucherStr_cols (df : DF) : (convertVoucherStr df).cols = df.cols := by
  unfold convertVoucherStr
  cases df.cols.findIdx? (· == "voucher") <;> rfl

theorem convertVoucherStr_length (df : DF) :
    (convertVoucherStr df).rows.length = df.rows.length := by
  unfold convertVoucherStr
  cases df.cols.findIdx? (· == "voucher") <;> simp

/-! ## C10: fail-closed authentication -/

/-- C10: the authentication gate is fail-closed on missing configuration —
with the configured API key the empty string, `authed` is `false` for every
request header (even `X-API-Key: ""`), so the authenticated endpoints
(`/submit`, `/flush`) answer unauthorized and mutate nothing. -/
theorem auth_fail_closed (hdr : Option String) (date now : String)
    (data : Option (List (String × Cell))) (daily : Option FileContent)
    (s : St) (t : Nat) :
    authed "" hdr = false ∧
    submitH "" hdr date now data daily = (.unauthorized, daily) ∧
    flushH "" hdr s t = (.unauthorized, s) := by
  have h : authed "" hdr = false := by
    unfold authed
    simp
  refine ⟨h, ?_, ?_⟩
  · unfold submitH
    rw [h]
    simp
  · unfold flushH
    rw [h]
    simp

/-! ## C3: an unparsable daily file is NOT treated as absent -/

/-- C3 counterexample: with the daily file present but unparsable, the append
raises (the `pd.read_excel` call of `ensure_df_and_append` has no exception
handler), so the request fails — the handler answers with a server error and
the file is left as it was. The claimed behavior (treat the file as absent and
complete successfully with a one-row table) does not occur. -/
theorem corrupt_daily_fails_request :
    ensure_df_and_append "20251012"
      (buildSubmitRow (reqData ⟨"V", "S", "D", "M"⟩) "T") (some .corrupt)
      = .error () ∧
    submitH "k" (some "k") "20251012" "T"
      (some (reqData ⟨"V", "S", "D", "M"⟩)) (some .corrupt)
      = (.serverError, some .corrupt) := by
  constructor <;> rfl

/-- C3 amended: an unparsable daily file makes the append raise — the error
propagates out of `ensure_df_and_append` and no write happens; only a
genuinely absent daily file starts from an empty table, in which case the
append completes with exactly one row. -/
theorem corrupt_daily_raises_absent_starts_fresh (date now : String)
    (data : List (String × Cell)) :
    ensure_df_and_append date (buildSubmitRow data now) (some .corrupt) = .error () ∧
    ∃ df2 : DF,
      ensure_df_and_append date (buildSubmitRow data now) none
        = .ok (get_daily_filename date, 1, some (.table df2)) ∧
      df2.rows.length = 1 := by
  constructor
  · rfl
  · have hc : (mkRowFrame (buildSubmitRow data now)).cols.contains "voucher" = true := rfl
    refine ⟨convertVoucherStr (mkRowFrame (buildSubmitRow data now)), ?_, ?_⟩
    · unfold ensure_df_and_append
      simp only [hc, if_true]
      simp [convertVoucherStr_length, mkRowFrame]
    · simp [convertVoucherStr_length, mkRowFrame]

/-! ## C2: the delete endpoint escapes the snapshot directory -/

/-- C2: path traversal in `/delete_file` — the handler joins the raw
client-supplied `filename` onto the directories with no sanitization, so
`filename = "../delivery_requests_20251012.xlsx"` resolves
`snapshots/../delivery_requests_20251012.xlsx` to the live daily file and
deletes it, and an absolute `filename = "/etc/passwd"` deletes an arbitrary
file: both deleted paths lie outside the snapshot directory, contradicting the
endpoint's own docstring ("deletes ONLY snapshots, not the live daily file"). -/
theorem delete_file_escapes_snapshot_dir :
    delete_file [PERMANENT_FOLDER ++ ["delivery_requests_20251012.xlsx"]]
        "../delivery_requests_20251012.xlsx"
      = (.deleted "../delivery_requests_20251012.xlsx", []) ∧
    inDirectory SNAPSHOT_FOLDER (PERMANENT_FOLDER ++ ["delivery_requests_20251012.xlsx"])
      = false ∧
    delete_file [["etc", "passwd"]] "/etc/passwd"
      = (.deleted "/etc/passwd", []) ∧
    inDirectory SNAPSHOT_FOLDER ["etc", "passwd"] = false := by
  refine ⟨by decide, by decide, by decide, by decide⟩

/-! ## C4: the loaded file is not projected onto the recognized fields -/

theorem concatDF_cols (a b : DF) :
    (concatDF a b).cols = a.cols ++ b.cols.filter (fun c => ¬ a.cols.contains c) := rfl

theorem concatDF_length (a b : DF) :
    (concatDF a b).rows.length = a.rows.length + b.rows.length := by
  simp [concatDF]

/-- C4 counterexample: appending a valid submit record to a daily file that
carries a `file_bytes` column (a column outside the recognized submit field
set) persists a file that still has the `file_bytes` column — `pd.concat`
takes the union of the column sets instead of projecting onto the recognized
fields, and fills the holes with NaN, not the empty string. -/
theorem append_keeps_unrecognized_columns :
    ensure_df_and_append "20251012"
        (buildSubmitRow (reqData ⟨"V", "S", "D", "M"⟩) "T") (some (.table legacyDF))
      = .ok ("delivery_requests_20251012.xlsx", 2, some (.table
          ⟨["voucher", "delivery_station", "delivery_date_with_weekday",
            "more_instructions", "file_bytes", "created_at", "source"],
           [[.str "A", .str "B", .str "C", .str "D", .num 123, .nan, .nan],
            [.str "V", .str "S", .str "D", .str "M", .nan, .str "TZ", .str "submit"]]⟩)) ∧
    submitCols.contains "file_bytes" = false := by
  constructor <;> rfl

/-- C4 amended: the inbound request is restricted to the recognized field
set — the row dict the handler builds has exactly the `submitCols` keys, so
any unrecognized inbound field is dropped — but the loaded daily file is NOT
projected onto those fields: the persisted column set is the loaded file's
columns followed by whichever recognized columns it lacked (a union, with the
missing cells NaN rather than empty string, as the counterexample shows), and
the row count grows by exactly one. -/
theorem append_row_restricted_file_not_projected
    (data : List (String × Cell)) (now date : String) (df : DF) :
    (buildSubmitRow data now).map Prod.fst = submitCols ∧
    ∃ df2 : DF,
      ensure_df_and_append date (buildSubmitRow data now) (some (.table df))
        = .ok (get_daily_filename date, df.rows.length + 1, some (.table df2)) ∧
      df2.cols = df.cols ++ submitCols.filter (fun c => ¬ df.cols.contains c) ∧
      df2.rows.length = df.rows.length + 1 := by
  have hmk : (mkRowFrame (buildSubmitRow data now)).cols = submitCols := rfl
  have hmklen : (mkRowFrame (buildSubmitRow data now)).rows.length = 1 := rfl
  have hcols : (concatDF (convertVoucherStr df) (mkRowFrame (buildSubmitRow data now))).cols
      = df.cols ++ submitCols.filter (fun c => ¬ df.cols.contains c) := by
    rw [concatDF_cols, convertVoucherStr_cols, hmk]
  have hlen : (concatDF (convertVoucherStr df) (mkRowFrame (buildSubmitRow data now))).rows.length
      = df.rows.length + 1 := by
    rw [concatDF_length, convertVoucherStr_length, hmklen]
  refine ⟨rfl, ?_⟩
  simp only [ensure_df_and_append, read_excel]
  by_cases hv : (concatDF (convertVoucherStr df)
      (mkRowFrame (buildSubmitRow data now))).cols.contains "voucher" = true
  · rw [if_pos hv]
    exact ⟨convertVoucherStr (concatDF (convertVoucherStr df)
        (mkRowFrame (buildSubmitRow data now))),
      by rw [convertVoucherStr_length, hlen],
      by rw [convertVoucherStr_cols, hcols],
      by rw [convertVoucherStr_length, hlen]⟩
  · rw [if_neg hv]
    exact ⟨concatDF (convertVoucherStr df) (mkRowFrame (buildSubmitRow data now)),
      by rw [hlen], hcols, hlen⟩

/-! ## Sorting lemmas for the snapshot queue -/

theorem insertByMtime_perm (x : Snap) (l : List Snap) :
    List.Perm (insertByMtime x l) (x :: l) := by
  induction l with
  | nil => exact List.Perm.refl _
  | cons y ys ih =>
    unfold insertByMtime
    by_cases h : x.mtime < y.mtime
    · rw [if_pos h]
    · rw [if_neg h]
      exact (ih.cons y).trans (List.Perm.swap x y ys)

theorem sortByMtime_perm_aux (l acc : List Snap) :
    List.Perm (List.foldl (fun acc x => insertByMtime x acc) acc l) (acc ++ l) := by
  induction l generalizing acc with
  | nil => simp
  | cons y ys ih =>
    simp only [List.foldl_cons]
    refine (ih (insertByMtime y acc)).trans ?_
    refine (((insertByMtime_perm y acc).append_right ys).trans ?_)
    exact List.perm_middle.symm

theorem sortByMtime_perm (l : List Snap) : List.Perm (sortByMtime l) l := by
  simpa using sortByMtime_perm_aux l []

theorem insertByMtime_sorted (x : Snap) (l : List Snap)
    (h : List.Pairwise (fun a b => a.mtime ≤ b.mtime) l) :
    List.Pairwise (fun a b => a.mtime ≤ b.mtime) (insertByMtime x l) := by
  induction l with
  | nil => simp [insertByMtime]
  | cons y ys ih =>
    rcases List.pairwise_cons.mp h with ⟨hy, hys⟩
    unfold insertByMtime
    by_cases hlt : x.mtime < y.mtime
    · rw [if_pos hlt]
      refine List.pairwise_cons.mpr ⟨?_, h⟩
      intro b hb
      rcases List.mem_cons.mp hb with h1 | h1
      · rw [h1]; exact le_of_lt hlt
      · exact le_trans (le_of_lt hlt) (hy b h1)
    · rw [if_neg hlt]
      refine List.pairwise_cons.mpr ⟨?_, ih hys⟩
      intro b hb
      rcases List.mem_cons.mp ((insertByMtime_perm x ys).mem_iff.mp hb) with h1 | h1
      · rw [h1]; exact le_of_not_lt hlt
      · exact hy b h1

theorem sortByMtime_sorted_aux (l acc : List Snap)
    (hacc : List.Pairwise (fun a b => a.mtime ≤ b.mtime) acc) :
    List.Pairwise (fun a b => a.mtime ≤ b.mtime)
      (List.foldl (fun acc x => insertByMtime x acc) acc l) := by
  induction l generalizing acc with
  | nil => exact hacc
  | cons y ys ih => exact ih _ (insertByMtime_sorted y acc hacc)

theorem sortByMtime_sorted (l : List Snap) :
    List.Pairwise (fun a b => a.mtime ≤ b.mtime) (sortByMtime l) :=
  sortByMtime_sorted_aux l [] (by simp)

theorem sortByMtime_eq_nil (l : List Snap) : sortByMtime l = [] ↔ l = [] := by
  constructor
  · intro h
    have hp := sortByMtime_perm l
    rw [h] at hp
    exact (hp.symm).eq_nil
  · intro h; rw [h]; rfl

theorem sortByMtime_head_min (l : List Snap) (a : Snap) (t : List Snap)
    (h : sortByMtime l = a :: t) : ∀ b ∈ l, a.mtime ≤ b.mtime := by
  intro b hb
  have hb2 : b ∈ a :: t := h ▸ ((sortByMtime_perm l).symm.mem_iff.mp hb)
  rcases List.mem_cons.mp hb2 with h1 | h1
  · rw [h1]
  · have hsor := sortByMtime_sorted l
    rw [h] at hsor
    exact (List.pairwise_cons.mp hsor).1 b h1

/-! ## C1: the three-way flush contract -/

/-- C1: the locked region of `/flush`: (1) when `fifo_oldest_snapshot` finds a
snapshot, flush returns it and the state is unchanged, and the returned name
belongs to a stored snapshot of minimal modification time among the `.xlsx`
snapshots; (2) when no snapshot exists and the daily file does, flush moves
the daily file into the snapshot directory under the fresh timestamped name
and returns that new snapshot; (3) when neither exists it reports nothing
available (404). -/
theorem flush_oldest_or_rotate (s : St) (now : Nat) :
    (∀ nm, fifo_oldest_snapshot s.snapshots = some nm →
        flushModel s now = (.file nm, s) ∧
        ∃ sn ∈ s.snapshots, sn.name = nm ∧
          ∀ t ∈ s.snapshots, xlsxName t.name = true → sn.mtime ≤ t.mtime) ∧
    (∀ fc, fifo_oldest_snapshot s.snapshots = none → s.daily = some fc →
        flushModel s now = (.file (unique_snapshot_name now),
          { daily := none,
            snapshots := s.snapshots ++ [⟨unique_snapshot_name now, now, fc⟩] })) ∧
    (fifo_oldest_snapshot s.snapshots = none → s.daily = none →
        flushModel s now = (.notFound, s)) := by
  refine ⟨?_, ?_, ?_⟩
  · intro nm h
    constructor
    · simp only [flushModel, h]
    · cases hs : sortedSnaps s.snapshots with
      | nil =>
        rw [fifo_oldest_snapshot, hs] at h
        simp at h
      | cons a t =>
        rw [fifo_oldest_snapshot, hs] at h
        simp only [List.head?_cons, Option.map_some', Option.some.injEq] at h
        have hs2 : sortByMtime (s.snapshots.filter (fun f => xlsxName f.name)) = a :: t := hs
        have hmem : a ∈ s.snapshots.filter (fun f => xlsxName f.name) :=
          (sortByMtime_perm _).mem_iff.mp (by rw [hs2]; exact List.mem_cons_self a t)
        refine ⟨a, (List.mem_filter.mp hmem).1, h, ?_⟩
        intro u hu hx
        exact sortByMtime_head_min _ a t hs2 u (List.mem_filter.mpr ⟨hu, hx⟩)
  · intro fc h hd
    simp only [flushModel, h, hd]
  · intro h hd
    simp only [flushModel, h, hd]

/-- Witness for the flush contract at concrete states: a queue holding
snapshots of mtimes 3 and 1 serves the mtime-1 one unchanged; an empty queue
with a daily file rotates it under the timestamped name; an empty store
answers not-found. -/
theorem flush_oldest_or_rotate_witness :
    flushModel ⟨some .corrupt, [⟨"a.xlsx", 3, .corrupt⟩, ⟨"b.xlsx", 1, .corrupt⟩]⟩ 9
      = (.file "b.xlsx",
         ⟨some .corrupt, [⟨"a.xlsx", 3, .corrupt⟩, ⟨"b.xlsx", 1, .corrupt⟩]⟩) ∧
    flushModel ⟨some (.table legacyDF), []⟩ 5
      = (.file "delivery_requests_5.xlsx",
         ⟨none, [⟨"delivery_requests_5.xlsx", 5, .table legacyDF⟩]⟩) ∧
    flushModel ⟨none, []⟩ 0 = (.notFound, ⟨none, []⟩) :=
  ⟨((flush_oldest_or_rotate ⟨some .corrupt,
      [⟨"a.xlsx", 3, .corrupt⟩, ⟨"b.xlsx", 1, .corrupt⟩]⟩ 9).1 "b.xlsx" (by decide)).1,
   (flush_oldest_or_rotate ⟨some (.table legacyDF), []⟩ 5).2.1 (.table legacyDF)
      (by decide) rfl,
   (flush_oldest_or_rotate ⟨none, []⟩ 0).2.2 (by decide) rfl⟩

/-! ## C7: flush is idempotent while a snapshot exists -/

/-- C7: for every state holding at least one `.xlsx` snapshot, every flush —
at any clock reading, so in particular repeated flushes with no intervening
submit or delete — returns the same oldest snapshot and leaves the state
exactly as it was: no rotation happens and no new snapshot is created. -/
theorem flush_idempotent (s : St)
    (h : s.snapshots.filter (fun f => xlsxName f.name) ≠ []) :
    ∃ nm, fifo_oldest_snapshot s.snapshots = some nm ∧
      ∀ now : Nat, flushModel s now = (.file nm, s) := by
  cases hs : sortedSnaps s.snapshots with
  | nil =>
    exact absurd ((sortByMtime_eq_nil _).mp hs) h
  | cons a t =>
    have hf : fifo_oldest_snapshot s.snapshots = some a.name := by
      rw [fifo_oldest_snapshot, hs]; rfl
    exact ⟨a.name, hf, fun now => by simp only [flushModel, hf]⟩

/-- Witness for flush idempotence at a concrete one-snapshot state. -/
theorem flush_idempotent_witness :
    (([⟨"a.xlsx", 3, FileContent.corrupt⟩] : List Snap).filter
        (fun f => xlsxName f.name) ≠ []) ∧
    ∃ nm, fifo_oldest_snapshot [⟨"a.xlsx", 3, FileContent.corrupt⟩] = some nm ∧
      ∀ now : Nat,
        flushModel ⟨none, [⟨"a.xlsx", 3, FileContent.corrupt⟩]⟩ now
          = (.file nm, ⟨none, [⟨"a.xlsx", 3, FileContent.corrupt⟩]⟩) :=
  ⟨by decide, flush_idempotent ⟨none, [⟨"a.xlsx", 3, FileContent.corrupt⟩]⟩ (by decide)⟩

/-! ## C9: the listing is oldest-first and agrees with oldest()/flush -/

/-- C9: `list_snapshots` lists the snapshot files in non-decreasing
modification-time order (the listing is the name image of the sorted snapshot
sequence), `fifo_oldest_snapshot` is exactly the listing's first element, and
whenever the listing is non-empty a flush returns precisely that first
element. -/
theorem list_snapshots_oldest_first (snaps : List Snap) (daily : Option FileContent) :
    List.Pairwise (fun a b => a.mtime ≤ b.mtime) (sortedSnaps snaps) ∧
    list_snapshots snaps = (sortedSnaps snaps).map Snap.name ∧
    fifo_oldest_snapshot snaps = (list_snapshots snaps).head? ∧
    (∀ nm t, list_snapshots snaps = nm :: t →
        ∀ now : Nat, (flushModel ⟨daily, snaps⟩ now).1 = .file nm) := by
  refine ⟨sortByMtime_sorted _, rfl, ?_, ?_⟩
  · rw [fifo_oldest_snapshot, list_snapshots]
    cases sortedSnaps snaps <;> rfl
  · intro nm t hl now
    cases hs : sortedSnaps snaps with
    | nil =>
      rw [list_snapshots, hs] at hl
      simp at hl
    | cons a t2 =>
      rw [list_snapshots, hs] at hl
      simp only [List.map_cons, List.cons.injEq] at hl
      have hf : fifo_oldest_snapshot snaps = some nm := by
        rw [fifo_oldest_snapshot, hs]
        simp [hl.1]
      simp only [flushModel, hf]

/-- Witness for the listing/oldest agreement at a concrete two-snapshot
state (mtimes 3 and 1): the listing starts with the mtime-1 snapshot and a
flush returns it. -/
theorem list_snapshots_oldest_first_witness :
    list_snapshots [⟨"a.xlsx", 3, FileContent.corrupt⟩, ⟨"b.xlsx", 1, FileContent.corrupt⟩]
      = ["b.xlsx", "a.xlsx"] ∧
    (flushModel ⟨none, [⟨"a.xlsx", 3, FileContent.corrupt⟩,
        ⟨"b.xlsx", 1, FileContent.corrupt⟩]⟩ 9).1 = .file "b.xlsx" :=
  ⟨by decide,
   (list_snapshots_oldest_first
      [⟨"a.xlsx", 3, FileContent.corrupt⟩, ⟨"b.xlsx", 1, FileContent.corrupt⟩]
      none).2.2.2 "b.xlsx" ["a.xlsx"] (by decide) 9⟩

/-! ## C8: deleting the daily file is refused, distinctly from not-found -/

theorem normalizePath_append_single (d : Path) (f : String)
    (hdot : f ≠ ".") (hdd : f ≠ "..") (hd : normalizePath d = d) :
    normalizePath (d ++ [f]) = d ++ [f] := by
  unfold normalizePath at hd ⊢
  rw [List.foldl_append, hd, List.foldl_cons, List.foldl_nil, if_neg hdot, if_neg hdd]

/-- C8 (amended): for a delete request whose identifier is a plain file name
(no path separator, not a dot component, not absolute): when no snapshot of
that name exists but the daily file carries that name, the handler answers
Refused — a result distinct from `fileNotFound` — and the filesystem is
untouched; when the name resolves to no file at all it answers not-found,
also without mutation. The restriction to plain names is forced: an
identifier with traversal components or an absolute path that resolves to the
daily file is deleted instead (see the counterexample). -/
theorem delete_plain_refuses_daily (fs : List Path) (filename : String)
    (hplain : splitPath filename = [filename])
    (habs : isAbsolute filename = false)
    (hdot : filename ≠ ".") (hdd : filename ≠ "..") (hne : filename ≠ "")
    (hnosnap : fs.contains (SNAPSHOT_FOLDER ++ [filename]) = false) :
    (fs.contains (PERMANENT_FOLDER ++ [filename]) = true →
        delete_file fs filename = (.refusedDaily, fs)) ∧
    (fs.contains (PERMANENT_FOLDER ++ [filename]) = false →
        delete_file fs filename = (.fileNotFound, fs)) := by
  have hsnapdir : normalizePath SNAPSHOT_FOLDER = SNAPSHOT_FOLDER := by decide
  have hpermdir : normalizePath PERMANENT_FOLDER = PERMANENT_FOLDER := by decide
  have hsnap : normalizePath (osPathJoin SNAPSHOT_FOLDER filename)
      = SNAPSHOT_FOLDER ++ [filename] := by
    rw [osPathJoin, habs]
    simp only [Bool.false_eq_true, if_false]
    rw [hplain]
    exact normalizePath_append_single _ _ hdot hdd hsnapdir
  have hdaily : normalizePath (osPathJoin PERMANENT_FOLDER filename)
      = PERMANENT_FOLDER ++ [filename] := by
    rw [osPathJoin, habs]
    simp only [Bool.false_eq_true, if_false]
    rw [hplain]
    exact normalizePath_append_single _ _ hdot hdd hpermdir
  constructor
  · intro hc
    rw [delete_file, if_neg hne]
    simp only [hsnap, hdaily, hnosnap, hc, Bool.false_eq_true, if_false, if_true]
  · intro hc
    rw [delete_file, if_neg hne]
    simp only [hsnap, hdaily, hnosnap, hc, Bool.false_eq_true, if_false]

/-- Witness for the delete contract: with only the daily file
`delivery_requests_20251012.xlsx` on disk, deleting its own name is refused
and nothing changes; deleting an unknown name reports not-found. -/
theorem delete_plain_refuses_daily_witness :
    delete_file [PERMANENT_FOLDER ++ ["delivery_requests_20251012.xlsx"]]
        "delivery_requests_20251012.xlsx"
      = (.refusedDaily, [PERMANENT_FOLDER ++ ["delivery_requests_20251012.xlsx"]]) ∧
    delete_file ([] : List Path) "nope.xlsx" = (.fileNotFound, []) :=
  ⟨(delete_plain_refuses_daily
      [PERMANENT_FOLDER ++ ["delivery_requests_20251012.xlsx"]]
      "delivery_requests_20251012.xlsx"
      (by decide) (by decide) (by decide) (by decide) (by decide) (by decide)).1
      (by decide),
   (delete_plain_refuses_daily [] "nope.xlsx"
      (by decide) (by decide) (by decide) (by decide) (by decide) (by decide)).2
      (by decide)⟩

/-- C8 counterexample: the identifier `../delivery_requests_20251012.xlsx`
resolves to the live daily file — the snapshot-directory join
`snapshots/../delivery_requests_20251012.xlsx` normalizes to the daily file's
path — and to no snapshot: the filesystem holds only the daily file, which
does not lie inside the snapshot directory. The claim requires Refused with
the file untouched, but `/delete_file` answers success and removes the daily
file. -/
theorem delete_daily_traversal_not_refused :
    normalizePath (osPathJoin SNAPSHOT_FOLDER "../delivery_requests_20251012.xlsx")
      = PERMANENT_FOLDER ++ ["delivery_requests_20251012.xlsx"] ∧
    inDirectory SNAPSHOT_FOLDER
      (PERMANENT_FOLDER ++ ["delivery_requests_20251012.xlsx"]) = false ∧
    delete_file [PERMANENT_FOLDER ++ ["delivery_requests_20251012.xlsx"]]
        "../delivery_requests_20251012.xlsx"
      = (.deleted "../delivery_requests_20251012.xlsx", []) ∧
    delete_file [PERMANENT_FOLDER ++ ["delivery_requests_20251012.xlsx"]]
        "../delivery_requests_20251012.xlsx"
      ≠ (.refusedDaily, [PERMANENT_FOLDER ++ ["delivery_requests_20251012.xlsx"]]) := by
  refine ⟨by decide, by decide, by decide, by decide⟩

/-! ## Submit-sequence machinery for C5 and C6 -/

theorem convertRow_expectedRow (r : SubmitReq) (now : String) :
    (expectedRow r now).set 0 (.str (pyStr ((expectedRow r now).getD 0 .nan)))
      = expectedRow r now := rfl

theorem map_set_expected (rows : List (List Cell))
    (h : ∀ row ∈ rows, ∃ r n, row = expectedRow r n) :
    rows.map (fun row => row.set 0 (.str (pyStr (row.getD 0 .nan)))) = rows := by
  induction rows with
  | nil => rfl
  | cons a l ih =>
    rcases h a (List.mem_cons_self a l) with ⟨r, n, ha⟩
    subst ha
    simp only [List.map_cons, convertRow_expectedRow]
    rw [ih (fun row hrow => h row (List.mem_cons_of_mem _ hrow))]

theorem convertVoucherStr_submit (rows : List (List Cell))
    (h : ∀ row ∈ rows, ∃ r n, row = expectedRow r n) :
    convertVoucherStr ⟨submitCols, rows⟩ = ⟨submitCols, rows⟩ := by
  have hidx : submitCols.findIdx? (· == "voucher") = some 0 := rfl
  unfold convertVoucherStr
  rw [hidx]
  simp only [DF.mk.injEq, true_and]
  exact map_set_expected rows h

theorem realign_expectedRow (r : SubmitReq) (now : String) :
    submitCols.map (getCell submitCols (expectedRow r now)) = expectedRow r now := rfl

theorem map_realign_expected (rows : List (List Cell))
    (h : ∀ row ∈ rows, ∃ r n, row = expectedRow r n) :
    rows.map (fun row => submitCols.map (getCell submitCols row)) = rows := by
  induction rows with
  | nil => rfl
  | cons a l ih =>
    rcases h a (List.mem_cons_self a l) with ⟨r, n, ha⟩
    subst ha
    simp only [List.map_cons, realign_expectedRow]
    rw [ih (fun row hrow => h row (List.mem_cons_of_mem _ hrow))]

theorem concatDF_submit (rows : List (List Cell)) (r : SubmitReq) (now : String)
    (h : ∀ row ∈ rows, ∃ r0 n0, row = expectedRow r0 n0) :
    concatDF ⟨submitCols, rows⟩ ⟨submitCols, [expectedRow r now]⟩
      = ⟨submitCols, rows ++ [expectedRow r now]⟩ := by
  have hcols : submitCols ++ submitCols.filter (fun c => ¬ submitCols.contains c)
      = submitCols := rfl
  show DF.mk _ _ = _
  rw [hcols]
  simp only [DF.mk.injEq, true_and]
  rw [List.map_cons, List.map_nil, realign_expectedRow, map_realign_expected rows h]

theorem ensure_step_table (date now : String) (r : SubmitReq) (rows : List (List Cell))
    (h : ∀ row ∈ rows, ∃ r0 n0, row = expectedRow r0 n0) :
    ensure_df_and_append date (buildSubmitRow (reqData r) now)
        (some (.table ⟨submitCols, rows⟩))
      = .ok (get_daily_filename date, rows.length + 1,
             some (.table ⟨submitCols, rows ++ [expectedRow r now]⟩)) := by
  have hread : read_excel (.table ⟨submitCols, rows⟩) = .ok ⟨submitCols, rows⟩ := by
    show Except.ok (convertVoucherStr ⟨submitCols, rows⟩) = _
    rw [convertVoucherStr_submit rows h]
  have happ : ∀ row ∈ rows ++ [expectedRow r now], ∃ r0 n0, row = expectedRow r0 n0 := by
    intro row hrow
    rcases List.mem_append.mp hrow with h1 | h1
    · exact h row h1
    · exact ⟨r, now, List.mem_singleton.mp h1⟩
  have hconv2 : convertVoucherStr ⟨submitCols, rows ++ [expectedRow r now]⟩
      = ⟨submitCols, rows ++ [expectedRow r now]⟩ := convertVoucherStr_submit _ happ
  have hmk : mkRowFrame (buildSubmitRow (reqData r) now)
      = ⟨submitCols, [expectedRow r now]⟩ := rfl
  simp only [ensure_df_and_append, hmk, hread, concatDF_submit rows r now h]
  rw [if_pos (show (DF.mk submitCols (rows ++ [expectedRow r now])).cols.contains "voucher"
        = true from rfl)]
  rw [hconv2]
  simp

theorem ensure_step_none (date now : String) (r : SubmitReq) :
    ensure_df_and_append date (buildSubmitRow (reqData r) now) none
      = .ok (get_daily_filename date, 1,
             some (.table ⟨submitCols, [expectedRow r now]⟩)) := by
  have hconv : convertVoucherStr ⟨submitCols, [expectedRow r now]⟩
      = ⟨submitCols, [expectedRow r now]⟩ := by
    refine convertVoucherStr_submit _ ?_
    intro row hrow
    exact ⟨r, now, List.mem_singleton.mp hrow⟩
  have hmk : mkRowFrame (buildSubmitRow (reqData r) now)
      = ⟨submitCols, [expectedRow r now]⟩ := rfl
  simp only [ensure_df_and_append, hmk]
  rw [if_pos (show (DF.mk submitCols [expectedRow r now]).cols.contains "voucher"
        = true from rfl)]
  rw [hconv]
  rfl

theorem authed_self (k : String) (hk : k ≠ "") : authed k (some k) = true := by
  unfold authed
  rw [Bool.and_eq_true]
  exact ⟨bne_iff_ne.mpr hk, beq_self_eq_true _⟩

theorem submitH_step (k : String) (hk : k ≠ "") (date now : String) (r : SubmitReq)
    (daily : Option FileContent) (nm : String) (cnt : Nat) (d2 : Option FileContent)
    (he : ensure_df_and_append date (buildSubmitRow (reqData r) now) daily
        = .ok (nm, cnt, d2)) :
    submitH k (some k) date now (some (reqData r)) daily = (.appended nm cnt, d2) := by
  have hreq : requiredFields.all (fun kk => hasKey (reqData r) kk) = true := rfl
  simp [submitH, authed_self k hk, hreq, he]

/-- The responses of a run of `n` valid submits when `c` rows already exist:
each submit reports the daily filename and the running row count. -/
def outsFrom (date : String) (c : Nat) : List (SubmitReq × String) → List SubmitResp
  | [] => []
  | _ :: rest => .appended (get_daily_filename date) (c + 1) :: outsFrom date (c + 1) rest

theorem stateOf_wfRows (l : List (SubmitReq × String)) :
    ∀ row ∈ l.map (fun p => expectedRow p.1 p.2), ∃ r n, row = expectedRow r n := by
  intro row hrow
  rcases List.mem_map.mp hrow with ⟨p, hp, hrow⟩
  exact ⟨p.1, p.2, hrow.symm⟩

theorem ensure_step_stateOf (date now : String) (r : SubmitReq)
    (pre : List (SubmitReq × String)) :
    ensure_df_and_append date (buildSubmitRow (reqData r) now) (stateOf pre)
      = .ok (get_daily_filename date, pre.length + 1, stateOf (pre ++ [(r, now)])) := by
  cases pre with
  | nil => simpa using ensure_step_none date now r
  | cons q qs =>
    have h := ensure_step_table date now r
      ((q :: qs).map (fun p => expectedRow p.1 p.2)) (stateOf_wfRows (q :: qs))
    have hst : stateOf (q :: qs)
        = some (.table ⟨submitCols, (q :: qs).map (fun p => expectedRow p.1 p.2)⟩) := rfl
    have hmapapp : ((q :: qs) ++ [(r, now)]).map (fun p => expectedRow p.1 p.2)
        = (q :: qs).map (fun p => expectedRow p.1 p.2) ++ [expectedRow r now] := by
      rw [List.map_append]
      rfl
    have hst2 : stateOf ((q :: qs) ++ [(r, now)])
        = some (.table ⟨submitCols,
            (q :: qs).map (fun p => expectedRow p.1 p.2) ++ [expectedRow r now]⟩) := by
      rw [show stateOf ((q :: qs) ++ [(r, now)])
          = some (.table ⟨submitCols,
              ((q :: qs) ++ [(r, now)]).map (fun p => expectedRow p.1 p.2)⟩) from rfl]
      rw [hmapapp]
    rw [hst, hst2, h]
    simp

theorem runSubmits_spec (k : String) (hk : k ≠ "") (date : String)
    (l pre : List (SubmitReq × String)) :
    runSubmits k date l (stateOf pre)
      = (outsFrom date pre.length l, stateOf (pre ++ l)) := by
  induction l generalizing pre with
  | nil => simp [runSubmits, outsFrom]
  | cons x rest ih =>
    obtain ⟨r, now⟩ := x
    have hsub := submitH_step k hk date now r (stateOf pre) _ _ _
      (ensure_step_stateOf date now r pre)
    simp only [runSubmits, hsub]
    rw [ih (pre ++ [(r, now)])]
    simp only [outsFrom, List.length_append, List.length_cons, List.length_nil,
      Nat.zero_add, List.append_assoc, List.singleton_append]

theorem outsFrom_eq_range (date : String) (c : Nat) (l : List (SubmitReq × String)) :
    outsFrom date c l = (List.range l.length).map (fun i =>
      SubmitResp.appended (get_daily_filename date) (c + i + 1)) := by
  induction l generalizing c with
  | nil => rfl
  | cons x rest ih =>
    simp only [outsFrom, List.length_cons, List.range_succ_eq_map, List.map_cons,
      List.map_map]
    rw [ih (c + 1)]
    simp only [List.cons.injEq]
    refine ⟨by simp, ?_⟩
    apply List.map_congr_left
    intro i hi
    simp only [Function.comp_apply, SubmitResp.appended.injEq, true_and]
    omega

/-! ## C6: N valid submits give N rows in order and running row counts -/

/-- C6: a sequence of N authenticated valid submits on one day, starting with
no daily file and with no intervening rotation, produces exactly the N rows
of the submitted records in submission order (the final state is `stateOf l`,
the table whose rows are the records' projections in order), and the i-th
submit (1-based) answers with the deterministic daily filename for the day
and row count i — in particular the N-th returns N. -/
theorem submit_sequence_counts (k date : String) (hk : k ≠ "")
    (l : List (SubmitReq × String)) :
    (runSubmits k date l none).1
      = (List.range l.length).map (fun i =>
          SubmitResp.appended (get_daily_filename date) (i + 1)) ∧
    (runSubmits k date l none).2 = stateOf l := by
  have h0 : runSubmits k date l none = (outsFrom date 0 l, stateOf l) :=
    runSubmits_spec k hk date l []
  constructor
  · rw [h0, outsFrom_eq_range]
    apply List.map_congr_left
    intro i hi
    simp
  · rw [h0]

/-- Witness: two concrete submits return row counts 1 then 2 with the daily
filename for 2025-10-12, and leave the two-row file in submission order. -/
theorem submit_sequence_counts_witness :
    ("secret" : String) ≠ "" ∧
    runSubmits "secret" "20251012"
        [(⟨"00012", "S1", "D1", "M1"⟩, "T1"), (⟨"7", "S2", "D2", "M2"⟩, "T2")] none
      = ([.appended "delivery_requests_20251012.xlsx" 1,
          .appended "delivery_requests_20251012.xlsx" 2],
         stateOf [(⟨"00012", "S1", "D1", "M1"⟩, "T1"),
                  (⟨"7", "S2", "D2", "M2"⟩, "T2")]) := by
  have hk : ("secret" : String) ≠ "" := by decide
  refine ⟨hk, ?_⟩
  have h := submit_sequence_counts "secret" "20251012" hk
    [(⟨"00012", "S1", "D1", "M1"⟩, "T1"), (⟨"7", "S2", "D2", "M2"⟩, "T2")]
  rw [Prod.ext_iff]
  exact ⟨h.1.trans (by decide), h.2⟩

/-! ## C5: the voucher column round-trips as the original string -/

/-- C5: after a submit of a record with voucher string `v` followed by any
further valid submits, re-reading the persisted daily file (through the same
reader the code uses, `pd.read_excel` with the string converter) yields the
voucher column as exactly the original strings, in order — a voucher like
"00012" comes back as "00012", never reinterpreted as the number 12. -/
theorem voucher_roundtrip (k date : String) (hk : k ≠ "") (r : SubmitReq)
    (now : String) (l : List (SubmitReq × String)) :
    readBackVouchers (runSubmits k date ((r, now) :: l) none).2
      = some (r.voucher :: l.map (fun p => p.1.voucher)) := by
  have h0 : runSubmits k date ((r, now) :: l) none
      = (outsFrom date 0 ((r, now) :: l), stateOf ((r, now) :: l)) :=
    runSubmits_spec k hk date ((r, now) :: l) []
  have hconv : convertVoucherStr
      ⟨submitCols, ((r, now) :: l).map (fun p => expectedRow p.1 p.2)⟩
      = ⟨submitCols, ((r, now) :: l).map (fun p => expectedRow p.1 p.2)⟩ :=
    convertVoucherStr_submit _ (stateOf_wfRows ((r, now) :: l))
  rw [h0]
  rw [show (outsFrom date 0 ((r, now) :: l), stateOf ((r, now) :: l)).2
      = stateOf ((r, now) :: l) from rfl]
  rw [show stateOf ((r, now) :: l) = some (.table
      ⟨submitCols, ((r, now) :: l).map (fun p => expectedRow p.1 p.2)⟩) from rfl]
  simp only [readBackVouchers, read_excel, hconv]
  rw [show submitCols.findIdx? (· == "voucher") = some 0 from rfl]
  show some ((((r, now) :: l).map (fun p => expectedRow p.1 p.2)).map
      (fun row => pyStr (row.getD 0 Cell.nan))) = _
  rw [List.map_map]
  rfl

/-- Witness: submitting the single record with voucher "00012" and re-reading
the daily file returns exactly ["00012"]. -/
theorem voucher_roundtrip_witness :
    ("secret" : String) ≠ "" ∧
    readBackVouchers
        (runSubmits "secret" "20251012" [(⟨"00012", "S", "D", "M"⟩, "T1")] none).2
      = some ["00012"] :=
  ⟨by decide,
   voucher_roundtrip "secret" "20251012" (by decide) ⟨"00012", "S", "D", "M"⟩ "T1" []⟩

end Boxnow
